import Mathlib

/-!
Shallow embedding of `pysafeprime/pysafeprime.py` (the single source module of
the pysafeprime repository) and proofs about it.

Modelling conventions:
* Candidate integers are natural numbers (the spec's data model restricts
  candidates to non-negative arbitrary-precision integers); Python `//`-style
  integer division and `%` on non-negative operands agree with `Nat` `/` and
  `%`.  Where the source mixes in a value that can be negative
  (`p0` in `safe_prime`) we use `ℤ` with `Int.emod`, which matches Python's
  `pow(_, _, m)` for a positive modulus `m`.
* Randomness (`os.urandom` decoded to an integer in `_random_in_range`) is
  modelled by an explicit list of pending draws, consumed left to right.
* Every `while` loop of the source takes a fuel argument; `Res.out` means the
  run is still inside some loop after the given fuel/draws are exhausted, so a
  result of `Res.out` for every fuel and every draw list is non-termination.
* Probabilities are exact rationals; the source computes with Python floats,
  which at the concrete probabilities used below round to the same values.
  Concrete probabilities are written with `mkRat` (e.g. `mkRat 1 100` for
  `0.01`) so that runs evaluate by kernel reduction.
* Range bounds live in `ℤ`: every bound the source computes is an integer on
  every path that reaches a comparison (see `random_bit_integer` for the one
  float corner, which is cut off by a `ValueError` first).
-/

/-- Pending random draws: the successive integers obtained by decoding
`os.urandom` bytes inside `_random_in_range` (source lines 17-20). -/
abbrev Draws := List ℕ

/-- Uncaught exceptions a run can raise: `ValueError` from `math.log` on a
non-positive argument (source line 17), `NameError` from the undefined name
`is_prime` (source line 190), `AssertionError` from the `assert` at source
line 63, and `Exception(msg)` raised at source lines 102 and 129. -/
inductive Err : Type where
  | valueError : Err
  | nameError : Err
  | assertionError : Err
  | exception : String → Err
deriving DecidableEq, Repr

/-- Outcome of running a fragment of the module: a value together with the
draws not yet consumed, an uncaught exception, or `out`: the run is still
inside a loop when the modelled draws/fuel run out. -/
inductive Res (α : Type) : Type where
  | ok : α → Draws → Res α
  | err : Err → Res α
  | out : Res α
deriving DecidableEq, Repr

/-- The rejection loop of `_random_in_range` (source lines 18-20): keep
drawing until the draw lands in `[low, high]`. -/
def randomInRangeLoop (low high : ℤ) : Draws → Res ℕ
  | [] => .out
  | n :: rest =>
      if (n : ℤ) < low ∨ (n : ℤ) > high then randomInRangeLoop low high rest
      else .ok n rest

/-- Model of `_random_in_range(low, high)` (source lines 6-21).  The byte count
`num_bytes = (int(math.log(high, 2)) / 8) + 1` is evaluated first and
`math.log` raises `ValueError` exactly when `high ≤ 0`; the width of each
draw is not otherwise modelled (out-of-range draws are rejected anyway). -/
def randomInRange (low high : ℤ) (draws : Draws) : Res ℕ :=
  if high ≤ 0 then .err .valueError else randomInRangeLoop low high draws

/-- Model of `_random_bit_integer(k)` (source lines 23-34): delegates to
`_random_in_range(2^(k-1) + 1, 2^k - 1)`.  The one spot where Python leaves
the integers is `k = 0`, whose `low` is the float `1.5`; there `high = 0`
makes `_random_in_range` raise `ValueError` before `low` is ever compared,
so the value of `low` at `k = 0` is immaterial and a `ℕ`-subtraction
exponent is faithful on every observable path. -/
def random_bit_integer (k : ℕ) (draws : Draws) : Res ℕ :=
  randomInRange ((2 : ℤ) ^ (k - 1) + 1) ((2 : ℤ) ^ k - 1) draws

/-- The loop `while nn % 2 == 0: s += 1; nn /= 2` of `is_prime_rabin`
(source lines 56-61), returning `(s, r)` with `r` the final odd `nn`.
For `nn = 0` the loop never terminates, which surfaces as `none` for every
fuel. -/
def factorTwosLoop : ℕ → ℕ → ℕ → Option (ℕ × ℕ)
  | 0, _, _ => none
  | fuel + 1, s, nn =>
      if nn % 2 = 0 then factorTwosLoop fuel (s + 1) (nn / 2) else some (s, nn)

/-- Truncated base-4 logarithm by repeated division, with fuel (adequate as
soon as the fuel is at least the argument). -/
def log4Aux : ℕ → ℕ → ℕ
  | 0, _ => 0
  | fuel + 1, x => if x < 4 then 0 else log4Aux fuel (x / 4) + 1

/-- Floor of the exact reciprocal of a positive rational: for
`probability = num/den` in lowest terms with `num > 0`, the reciprocal is
`den/num` and its floor is the integer division `den / num`. -/
def recipFloor (probability : ℚ) : ℕ :=
  probability.den / probability.num.toNat

/-- Model of `num_trials = int(math.log((1 / probability), 4))` (source
line 65) for a probability in the function's valid domain
`0 < probability ≤ 1`: Python's `int(...)` truncates toward zero, so this is
the floor of the base-4 logarithm of `1 / probability`, i.e. the largest `t`
with `4 ^ t ≤ 1 / probability`, computed as the truncated base-4 logarithm
of `⌊1 / probability⌋ = recipFloor probability`.  (For `probability ≤ 0` the
Python line raises before any Miller-Rabin round; no claim exercises that
domain.) -/
def numTrials (probability : ℚ) : ℕ :=
  log4Aux (recipFloor probability) (recipFloor probability)

/-- One update of the Miller-Rabin inner loop, exactly as written at source
line 72: `y = pow(y, y, n)` — the intermediate value is raised to its own
power, not squared. -/
def rabinSquareStep (y n : ℕ) : ℕ := y ^ y % n

/-- The inner loop of `is_prime_rabin` (source lines 70-77), running for at
most `cnt = s - 1` iterations on the current value `y`:
`while j <= s - 1 and y != (n - 1): y = pow(y, y, n); if y == 1: return
False; j += 1` followed by `if y != (n - 1): return False`.  The returned
boolean is `true` when the round passes and `false` when the whole test
returns `False`. -/
def rabinSquare : ℕ → ℕ → ℕ → Bool
  | 0, y, n => y = n - 1
  | cnt + 1, y, n =>
      if y = n - 1 then true
      else
        let y2 := rabinSquareStep y n
        if y2 = 1 then false else rabinSquare cnt y2 n

/-- One round of `is_prime_rabin` (source lines 67-77) at witness `a`:
`y = pow(a, r, n)`, the round passes immediately when `y` is `1` or `n - 1`,
otherwise the inner loop decides. -/
def rabinRound (a r s n : ℕ) : Bool :=
  let y := a ^ r % n
  if y ≠ 1 ∧ y ≠ n - 1 then rabinSquare (s - 1) y n else true

/-- The trial loop `for i in range(num_trials)` of `is_prime_rabin`
(source lines 66-77): each round draws a witness from `[2, n - 2]`; a failed
round returns `False` at once, surviving all rounds returns `True`. -/
def rabinTrials : ℕ → ℕ → ℕ → ℕ → Draws → Res Bool
  | 0, _, _, _, draws => .ok true draws
  | t + 1, r, s, n, draws =>
      match randomInRange 2 ((n : ℤ) - 2) draws with
      | .ok a rest =>
          if rabinRound a r s n then rabinTrials t r s n rest else .ok false rest
      | .err e => .err e
      | .out => .out

/-- Model of `is_prime_rabin(n, probability)` (source lines 36-79): handle `2` and the
even numbers, factor `n - 1 = 2^s * r` with `r` odd, check the `assert` at
line 63, then run `num_trials` Miller-Rabin rounds. -/
def is_prime_rabin (n : ℕ) (probability : ℚ) (fuel : ℕ) (draws : Draws) : Res Bool :=
  if n = 2 then .ok true draws
  else if n % 2 = 0 then .ok false draws
  else
    match factorTwosLoop fuel 0 (n - 1) with
    | none => .out
    | some (s, r) =>
        if 2 ^ s * r = n - 1 then rabinTrials (numTrials probability) r s n draws
        else .err .assertionError

/-- The loop of `random_prime` (source lines 94-102): up to `num_trials`
attempts (unbounded when `block` is set), each sampling a `k`-bit candidate
and testing it; exhaustion raises
`Exception("Could not generate a random prime")`. -/
def randomPrimeLoop : ℕ → ℕ → ℚ → ℕ → ℕ → Bool → Draws → Res ℕ
  | 0, _, _, _, _, _, _ => .out
  | fuel + 1, k, probability, num_trials, trial, block, draws =>
      if trial < num_trials ∨ block then
        match random_bit_integer k draws with
        | .ok n rest =>
            match is_prime_rabin n probability fuel rest with
            | .ok true rest2 => .ok n rest2
            | .ok false rest2 =>
                randomPrimeLoop fuel k probability num_trials (trial + 1) block rest2
            | .err e => .err e
            | .out => .out
        | .err e => .err e
        | .out => .out
      else .err (.exception "Could not generate a random prime")

/-- Model of `random_prime(k, probability, num_trials)` (source lines 81-102);
`num_trials = 0` (the default) sets the `block` flag. -/
def random_prime (k : ℕ) (probability : ℚ) (num_trials : ℕ) (fuel : ℕ)
    (draws : Draws) : Res ℕ :=
  randomPrimeLoop fuel k probability num_trials 0 (num_trials == 0) draws

/-- The loop of `random_prime_with_filter` (source lines 121-129): at most
`1000` trials, each obtaining a blocking `random_prime(k, probability)` and
keeping it when the condition holds; exhaustion raises
`Exception("Could not generate a random prime that meets the criteria")`. -/
def rpfLoop : ℕ → ℕ → (ℕ → Bool) → ℚ → ℕ → Draws → Res ℕ
  | 0, _, _, _, _, _ => .out
  | fuel + 1, k, condition, probability, trial, draws =>
      if trial < 1000 then
        match random_prime k probability 0 fuel draws with
        | .ok p rest =>
            if condition p then .ok p rest
            else rpfLoop fuel k condition probability (trial + 1) rest
        | .err e => .err e
        | .out => .out
      else .err (.exception "Could not generate a random prime that meets the criteria")

/-- Model of `random_prime_with_filter(k, condition, probability)`
(source lines 104-129). -/
def random_prime_with_filter (k : ℕ) (condition : ℕ → Bool) (probability : ℚ)
    (fuel : ℕ) (draws : Draws) : Res ℕ :=
  rpfLoop fuel k condition probability 0 draws

/-- First search loop of `safe_prime` (source lines 147-153): the smallest
`i ≥ 1` with `2*i*t + 1` probably prime, returning that value `q`. -/
def spLoop1 : ℕ → ℕ → ℚ → ℕ → Draws → Res ℕ
  | 0, _, _, _, _ => .out
  | fuel + 1, t, probability, i, draws =>
      let qt := 2 * i * t + 1
      match is_prime_rabin qt probability fuel draws with
      | .ok true rest => .ok qt rest
      | .ok false rest => spLoop1 fuel t probability (i + 1) rest
      | .err e => .err e
      | .out => .out

/-- Second search loop of `safe_prime` (source lines 159-165): the smallest
`j ≥ 1` with `p0 + 2*j*r*s` probably prime.  `p0` can be `-1` in Python (when
`r` divides `s`), hence the `ℤ` argument; the candidate itself is positive
for every `j ≥ 1`, so the `toNat` conversion is exact on every reachable
candidate. -/
def spLoop2 : ℕ → ℤ → ℕ → ℕ → ℚ → ℕ → Draws → Res ℕ
  | 0, _, _, _, _, _, _ => .out
  | fuel + 1, p0, r, s, probability, j, draws =>
      let qt := (p0 + 2 * (j : ℤ) * (r : ℤ) * (s : ℤ)).toNat
      match is_prime_rabin qt probability fuel draws with
      | .ok true rest => .ok qt rest
      | .ok false rest => spLoop2 fuel p0 r s probability (j + 1) rest
      | .err e => .err e
      | .out => .out

/-- Model of `safe_prime(k, probability)` (source lines 131-169): draw two blocking
random `k`-bit primes `s` and `t`, find `r = q` via the first search loop,
set `p0 = 2 * (pow(s, r - 2, r)) * s - 1`, and return the result of the
second search loop. -/
def safe_prime (k : ℕ) (probability : ℚ) (fuel : ℕ) (draws : Draws) : Res ℕ :=
  match random_prime k probability 0 fuel draws with
  | .ok s rest =>
      match random_prime k probability 0 fuel rest with
      | .ok t rest2 =>
          match spLoop1 fuel t probability 1 rest2 with
          | .ok r rest3 =>
              let p0 : ℤ := 2 * ((s : ℤ) ^ (r - 2) % (r : ℤ)) * (s : ℤ) - 1
              spLoop2 fuel p0 r s probability 1 rest3
          | .err e => .err e
          | .out => .out
      | .err e => .err e
      | .out => .out
  | .err e => .err e
  | .out => .out

/-- The test applied to each filtered candidate of `fast_safe_prime`
(source line 190):
`is_prime_rabin((2 * p) + 1, probability) or is_prime((p - 1) / 2, probability)`.
The name `is_prime` is defined nowhere in the module, so whenever the first
disjunct is `False`, evaluating the second raises `NameError`; the `or`
short-circuits, so the call is reached exactly then. -/
def fspCheck (p : ℕ) (probability : ℚ) (fuel : ℕ) (draws : Draws) : Res Bool :=
  match is_prime_rabin (2 * p + 1) probability fuel draws with
  | .ok true rest => .ok true rest
  | .ok false _ => .err .nameError
  | .err e => .err e
  | .out => .out

/-- The `while True` loop of `fast_safe_prime` (source lines 187-191): draw a
filtered prime `p ≡ 3 (mod 4)` and return it when the line-190 test accepts.
(The retry branch mirrors the loop structure; `fspCheck` never produces
`ok false`.) -/
def fspLoop : ℕ → ℕ → ℚ → Draws → Res ℕ
  | 0, _, _, _ => .out
  | fuel + 1, k, probability, draws =>
      match random_prime_with_filter k (fun p => p % 4 == 3) probability fuel draws with
      | .ok p rest =>
          match fspCheck p probability fuel rest with
          | .ok true rest2 => .ok p rest2
          | .ok false rest2 => fspLoop fuel k probability rest2
          | .err e => .err e
          | .out => .out
      | .err e => .err e
      | .out => .out

/-- Model of `fast_safe_prime(k, probability)` (source lines 171-191). -/
def fast_safe_prime (k : ℕ) (probability : ℚ) (fuel : ℕ) (draws : Draws) : Res ℕ :=
  fspLoop fuel k probability draws

/-- Bit length by repeated halving, with fuel (adequate as soon as the fuel
is at least the argument): the number of binary digits of `n`, the
`bitLength` of the spec (`floor(log2 n) + 1` for `n ≥ 1`). -/
def bitLenAux : ℕ → ℕ → ℕ
  | 0, _ => 0
  | fuel + 1, n => if n = 0 then 0 else bitLenAux fuel (n / 2) + 1

/-- Model of `bitLength(n)`: number of bits required to represent `n` in unsigned
binary. -/
def bitLength (n : ℕ) : ℕ := bitLenAux n n

/-! ### Basic lemmas about the sampler and the loops -/

/-- The factor-out-twos loop never terminates on `nn = 0` (the `is_prime_rabin(1)`
situation): `0 % 2 == 0` holds forever. -/
theorem factorTwos_zero : ∀ (fuel s : ℕ), factorTwosLoop fuel s 0 = none := by
  intro fuel
  induction fuel with
  | zero => intro s; rfl
  | succ fuel ih =>
      intro s
      rw [factorTwosLoop]
      simpa using ih (s + 1)

/-- A value accepted by the rejection loop lies in the requested range. -/
theorem randomInRangeLoop_ok {low high : ℤ} {d : Draws} {n : ℕ} {rest : Draws}
    (h : randomInRangeLoop low high d = .ok n rest) :
    low ≤ (n : ℤ) ∧ (n : ℤ) ≤ high := by
  induction d generalizing n rest with
  | nil => exact Res.noConfusion h
  | cons m d ih =>
      rw [randomInRangeLoop] at h
      split at h
      · exact ih h
      · rename_i hc
        push_neg at hc
        injection h with h1 h2
        subst h1
        exact hc

/-- A value returned by `_random_in_range` lies in the requested range. -/
theorem randomInRange_ok {low high : ℤ} {d : Draws} {n : ℕ} {rest : Draws}
    (h : randomInRange low high d = .ok n rest) :
    low ≤ (n : ℤ) ∧ (n : ℤ) ≤ high := by
  rw [randomInRange] at h
  split at h
  · exact Res.noConfusion h
  · exact randomInRangeLoop_ok h

/-- A value returned by `_random_bit_integer(k)` lies strictly between
`2^(k-1)` and `2^k`. -/
theorem random_bit_integer_ok {k : ℕ} {d : Draws} {n : ℕ} {rest : Draws}
    (h : random_bit_integer k d = .ok n rest) :
    2 ^ (k - 1) < n ∧ n < 2 ^ k := by
  rw [random_bit_integer] at h
  obtain ⟨h1, h2⟩ := randomInRange_ok h
  have hA : (2 : ℤ) ^ (k - 1) < (n : ℤ) := by linarith
  have hB : (n : ℤ) < 2 ^ k := by linarith
  constructor
  · exact_mod_cast hA
  · exact_mod_cast hB

/-- Helper: the bit-length accumulator is `0` on `0` for every fuel. -/
theorem bitLenAux_zero : ∀ fuel, bitLenAux fuel 0 = 0 := by
  intro fuel
  cases fuel with
  | zero => rfl
  | succ fuel => rfl

/-- The bit-length accumulator computes the binary digit count: with enough
fuel, an `n` with `2^(k-1) ≤ n < 2^k` (and `k ≥ 1`) has exactly `k` bits. -/
theorem bitLenAux_eq : ∀ (fuel n k : ℕ), n ≤ fuel → 1 ≤ k →
    2 ^ (k - 1) ≤ n → n < 2 ^ k → bitLenAux fuel n = k := by
  intro fuel
  induction fuel with
  | zero =>
      intro n k hn hk h1 h2
      exfalso
      have := Nat.one_le_two_pow (n := k - 1)
      omega
  | succ fuel ih =>
      intro n k hn hk h1 h2
      have hne : n ≠ 0 := by
        have := Nat.one_le_two_pow (n := k - 1)
        omega
      rw [bitLenAux, if_neg hne]
      by_cases hk1 : k = 1
      · subst hk1
        have h2' : n < 2 := by simpa using h2
        have : n = 1 := by omega
        subst this
        simp [bitLenAux_zero]
      · have hk2 : 2 ≤ k := by omega
        have e1 : k - 1 = (k - 2) + 1 := by omega
        have e2 : k = (k - 1) + 1 := by omega
        have hlow : 2 ^ (k - 2) ≤ n / 2 := by
          rw [Nat.le_div_iff_mul_le (by norm_num)]
          calc 2 ^ (k - 2) * 2 = 2 ^ ((k - 2) + 1) := (pow_succ 2 (k - 2)).symm
            _ = 2 ^ (k - 1) := by rw [← e1]
            _ ≤ n := h1
        have hhigh : n / 2 < 2 ^ (k - 1) := by
          rw [Nat.div_lt_iff_lt_mul (by norm_num)]
          calc n < 2 ^ k := h2
            _ = 2 ^ ((k - 1) + 1) := by rw [← e2]
            _ = 2 ^ (k - 1) * 2 := pow_succ 2 (k - 1)
        have : bitLenAux fuel (n / 2) = k - 1 := by
          refine ih (n / 2) (k - 1) (by omega) (by omega) ?_ hhigh
          have e3 : (k - 1) - 1 = k - 2 := by omega
          rw [e3]
          exact hlow
        omega

/-- `bitLength` of an `n` in `[2^(k-1), 2^k)` is `k`. -/
theorem bitLength_eq {n k : ℕ} (hk : 1 ≤ k) (h1 : 2 ^ (k - 1) ≤ n) (h2 : n < 2 ^ k) :
    bitLength n = k :=
  bitLenAux_eq n n k le_rfl hk h1 h2

/-- With adequate fuel, `log4Aux` computes the floor of the base-4 logarithm:
`4 ^ (log4Aux fuel x) ≤ x < 4 ^ (log4Aux fuel x + 1)` for `x ≥ 1`. -/
theorem log4Aux_spec : ∀ (fuel x : ℕ), 1 ≤ x → x ≤ fuel →
    4 ^ log4Aux fuel x ≤ x ∧ x < 4 ^ (log4Aux fuel x + 1) := by
  intro fuel
  induction fuel with
  | zero => intro x h1 h2; exfalso; omega
  | succ fuel ih =>
      intro x h1 h2
      rw [log4Aux]
      by_cases h4 : x < 4
      · rw [if_pos h4]
        constructor
        · simpa using h1
        · simpa using h4
      · rw [if_neg h4]
        push_neg at h4
        obtain ⟨ha, hb⟩ := ih (x / 4) (by omega) (by omega)
        constructor
        · calc 4 ^ (log4Aux fuel (x / 4) + 1) = 4 * 4 ^ log4Aux fuel (x / 4) := by ring
            _ ≤ 4 * (x / 4) := by omega
            _ ≤ x := by omega
        · calc x < 4 * (x / 4 + 1) := by omega
            _ ≤ 4 * 4 ^ (log4Aux fuel (x / 4) + 1) := by
                have : x / 4 + 1 ≤ 4 ^ (log4Aux fuel (x / 4) + 1) := by omega
                omega
            _ = 4 ^ (log4Aux fuel (x / 4) + 1 + 1) := by ring

/-- A value returned by the `random_prime` loop was sampled by
`_random_bit_integer(k)` and accepted by `is_prime_rabin` during the run. -/
theorem randomPrimeLoop_ok :
    ∀ (fuel k : ℕ) (prob : ℚ) (nt trial : ℕ) (block : Bool) (d : Draws)
      (n : ℕ) (rest : Draws),
      randomPrimeLoop fuel k prob nt trial block d = .ok n rest →
      (∃ d1 rest1, random_bit_integer k d1 = .ok n rest1) ∧
        (∃ f d1 d2, is_prime_rabin n prob f d1 = .ok true d2) := by
  intro fuel
  induction fuel with
  | zero => intro k prob nt trial block d n rest h; exact Res.noConfusion h
  | succ fuel ih =>
      intro k prob nt trial block d n rest h
      rw [randomPrimeLoop] at h
      split at h
      · split at h
        · rename_i m rest1 hbi
          split at h
          · rename_i rest2 hpr
            injection h with h1 h2
            subst h1
            exact ⟨⟨d, rest1, hbi⟩, fuel, rest1, rest2, hpr⟩
          · rename_i rest2 hpr
            exact ih k prob nt (trial + 1) block rest2 n rest h
          · exact Res.noConfusion h
          · exact Res.noConfusion h
        · exact Res.noConfusion h
        · exact Res.noConfusion h
      · exact Res.noConfusion h

/-- A value returned by `random_prime` was sampled by `_random_bit_integer(k)`
and accepted by `is_prime_rabin` during the run. -/
theorem random_prime_ok {k : ℕ} {prob : ℚ} {nt fuel : ℕ} {d : Draws}
    {n : ℕ} {rest : Draws} (h : random_prime k prob nt fuel d = .ok n rest) :
    (∃ d1 rest1, random_bit_integer k d1 = .ok n rest1) ∧
      (∃ f d1 d2, is_prime_rabin n prob f d1 = .ok true d2) := by
  rw [random_prime] at h
  exact randomPrimeLoop_ok fuel k prob nt 0 (nt == 0) d n rest h

/-- A value returned by the `random_prime_with_filter` loop satisfies the
condition, was sampled by `_random_bit_integer(k)`, and was accepted by
`is_prime_rabin` during the run. -/
theorem rpfLoop_ok :
    ∀ (fuel k : ℕ) (condition : ℕ → Bool) (prob : ℚ) (trial : ℕ) (d : Draws)
      (p : ℕ) (rest : Draws),
      rpfLoop fuel k condition prob trial d = .ok p rest →
      condition p = true ∧
        (∃ d1 rest1, random_bit_integer k d1 = .ok p rest1) ∧
        (∃ f d1 d2, is_prime_rabin p prob f d1 = .ok true d2) := by
  intro fuel
  induction fuel with
  | zero => intro k c prob trial d p rest h; exact Res.noConfusion h
  | succ fuel ih =>
      intro k c prob trial d p rest h
      rw [rpfLoop] at h
      split at h
      · split at h
        · rename_i q rest1 hrp
          split at h
          · rename_i hcq
            injection h with h1 h2
            subst h1
            exact ⟨hcq, random_prime_ok hrp⟩
          · exact ih k c prob (trial + 1) rest1 p rest h
        · exact Res.noConfusion h
        · exact Res.noConfusion h
      · exact Res.noConfusion h

/-- A value returned by `random_prime_with_filter` satisfies the condition,
was sampled by `_random_bit_integer(k)`, and was accepted by
`is_prime_rabin` during the run. -/
theorem random_prime_with_filter_ok {k : ℕ} {condition : ℕ → Bool} {prob : ℚ}
    {fuel : ℕ} {d : Draws} {p : ℕ} {rest : Draws}
    (h : random_prime_with_filter k condition prob fuel d = .ok p rest) :
    condition p = true ∧
      (∃ d1 rest1, random_bit_integer k d1 = .ok p rest1) ∧
      (∃ f d1 d2, is_prime_rabin p prob f d1 = .ok true d2) := by
  rw [random_prime_with_filter] at h
  exact rpfLoop_ok fuel k condition prob 0 d p rest h

/-- A value returned by the second `safe_prime` search loop was accepted by
`is_prime_rabin` during the run. -/
theorem spLoop2_ok :
    ∀ (fuel : ℕ) (p0 : ℤ) (r s : ℕ) (prob : ℚ) (j : ℕ) (d : Draws)
      (p : ℕ) (rest : Draws),
      spLoop2 fuel p0 r s prob j d = .ok p rest →
      ∃ f d1 d2, is_prime_rabin p prob f d1 = .ok true d2 := by
  intro fuel
  induction fuel with
  | zero => intro p0 r s prob j d p rest h; exact Res.noConfusion h
  | succ fuel ih =>
      intro p0 r s prob j d p rest h
      rw [spLoop2] at h
      split at h
      · rename_i rest1 hpr
        injection h with h1 h2
        subst h1
        exact ⟨fuel, d, rest1, hpr⟩
      · rename_i rest1 hpr
        exact ih p0 r s prob (j + 1) rest1 p rest h
      · exact Res.noConfusion h
      · exact Res.noConfusion h

/-- A value returned by `safe_prime` was accepted by `is_prime_rabin` during
the run (it is the final `q` of the second search loop). -/
theorem safe_prime_ok {k : ℕ} {prob : ℚ} {fuel : ℕ} {d : Draws}
    {p : ℕ} {rest : Draws} (h : safe_prime k prob fuel d = .ok p rest) :
    ∃ f d1 d2, is_prime_rabin p prob f d1 = .ok true d2 := by
  rw [safe_prime] at h
  split at h
  · rename_i s1 rest1 _hs1
    split at h
    · rename_i t1 rest2 _ht1
      split at h
      · rename_i r1 rest3 h3
        exact spLoop2_ok fuel _ r1 s1 prob 1 rest3 p rest h
      · exact Res.noConfusion h
      · exact Res.noConfusion h
    · exact Res.noConfusion h
    · exact Res.noConfusion h
  · exact Res.noConfusion h
  · exact Res.noConfusion h

/-- The line-190 test can only succeed through its first disjunct: an `ok`
outcome of `fspCheck` is `true` and certifies `is_prime_rabin(2p+1)`. -/
theorem fspCheck_ok {p : ℕ} {prob : ℚ} {fuel : ℕ} {d : Draws} {b : Bool}
    {rest : Draws} (h : fspCheck p prob fuel d = .ok b rest) :
    b = true ∧ is_prime_rabin (2 * p + 1) prob fuel d = .ok true rest := by
  rw [fspCheck] at h
  split at h
  · rename_i rest1 hmr
    injection h with h1 h2
    subst h2
    exact ⟨h1.symm, hmr⟩
  · exact Res.noConfusion h
  · exact Res.noConfusion h
  · exact Res.noConfusion h

/-- When `is_prime_rabin(2p+1)` comes back `False`, evaluating the undefined
name `is_prime` raises `NameError`. -/
theorem fspCheck_false {p : ℕ} {prob : ℚ} {fuel : ℕ} {d d' : Draws}
    (h : is_prime_rabin (2 * p + 1) prob fuel d = .ok false d') :
    fspCheck p prob fuel d = .err .nameError := by
  rw [fspCheck, h]

/-- A value returned by the `fast_safe_prime` loop is `3 mod 4`, and both it
and `2p+1` were accepted by `is_prime_rabin` during the run. -/
theorem fspLoop_ok :
    ∀ (fuel k : ℕ) (prob : ℚ) (d : Draws) (p : ℕ) (rest : Draws),
      fspLoop fuel k prob d = .ok p rest →
      p % 4 = 3 ∧
        (∃ f d1 d2, is_prime_rabin (2 * p + 1) prob f d1 = .ok true d2) ∧
        (∃ f d1 d2, is_prime_rabin p prob f d1 = .ok true d2) := by
  intro fuel
  induction fuel with
  | zero => intro k prob d p rest h; exact Res.noConfusion h
  | succ fuel ih =>
      intro k prob d p rest h
      rw [fspLoop] at h
      split at h
      · rename_i q rest1 hrpf
        split at h
        · rename_i rest2 hchk
          injection h with h1 h2
          subst h1
          obtain ⟨hc, _, hpp⟩ := random_prime_with_filter_ok hrpf
          obtain ⟨_, hmr⟩ := fspCheck_ok hchk
          exact ⟨by simpa using hc, ⟨fuel, rest1, rest2, hmr⟩, hpp⟩
        · rename_i rest2 hchk
          exact ih k prob rest2 p rest h
        · exact Res.noConfusion h
        · exact Res.noConfusion h
      · exact Res.noConfusion h
      · exact Res.noConfusion h

/-- Reaching the trial bound of the non-blocking `random_prime` loop raises
the explicit exhaustion exception. -/
theorem randomPrimeLoop_exhaust (fuel k : ℕ) (prob : ℚ) (nt trial : ℕ)
    (d : Draws) (_h1 : nt ≠ 0) (h2 : nt ≤ trial) :
    randomPrimeLoop (fuel + 1) k prob nt trial false d =
      .err (.exception "Could not generate a random prime") := by
  rw [randomPrimeLoop, if_neg]
  simp only [Bool.false_eq_true, or_false]
  omega

/-- Reaching the trial bound of the `random_prime_with_filter` loop raises
the explicit exhaustion exception. -/
theorem rpfLoop_exhaust (fuel k : ℕ) (condition : ℕ → Bool) (prob : ℚ)
    (trial : ℕ) (d : Draws) (h : 1000 ≤ trial) :
    rpfLoop (fuel + 1) k condition prob trial d =
      .err (.exception "Could not generate a random prime that meets the criteria") := by
  rw [rpfLoop, if_neg]
  omega

/-- Every draw is rejected by the empty range `[2, 1]` that
`_random_bit_integer(1)` requests. -/
theorem randomInRangeLoop_two_one : ∀ d : Draws, randomInRangeLoop 2 1 d = Res.out := by
  intro d
  induction d with
  | nil => rfl
  | cons m d ih =>
      rw [randomInRangeLoop, if_pos (by omega)]
      exact ih

/-! ### Claims -/

/-- Claim C1 (code bug): the test as implemented can reject an actual prime.
With witness `a = 2`, the run on the prime `13` computes `y = 2^3 mod 13 = 8`
and the buggy inner update `pow(y, y, n) = 8^8 mod 13 = 1`, so
`is_prime_rabin(13, 0.01)` returns `False` — the claim that primes are never
rejected (for any drawn witnesses) fails on the code. -/
theorem claim1_buggy_test_rejects_prime_13 :
    Nat.Prime 13 ∧ is_prime_rabin 13 (mkRat 1 100) 10 [2] = Res.ok false [] := by
  constructor
  · norm_num
  · decide

/-- Claim C2 (code bug): the inner-loop update is not modular squaring.  At
the state reached in the `n = 13`, witness `2` round (`y = 8`), the source's
update `pow(y, y, n)` yields `8^8 mod 13 = 1`, while the squaring the claim
describes yields `8^2 mod 13 = 12`. -/
theorem claim2_inner_step_is_self_power :
    rabinSquareStep 8 13 = 1 ∧ 8 ^ 2 % 13 = 12 ∧ rabinSquareStep 8 13 ≠ 8 ^ 2 % 13 := by
  decide

/-- Claim C3 (code bug): a complete concrete run of `safe_prime(3, 0.01)`
(draw sequence: candidate `5` with witnesses `2,2,2` for `s`; the same for
`t`; witnesses `2,2,2` accepting `q = r = 11`; witnesses `2,2,2` accepting
`199`) returns `p = 199`.  Its bit length is `8`, not in `{2k-1, 2k} = {5, 6}`,
and `(p-1)/2 = 99 = 9 * 11` is composite — the tester itself rejects `99`
with witness `2`. -/
theorem claim3_safe_prime_run_violates_contract :
    safe_prime 3 (mkRat 1 100) 30 [5,2,2,2,5,2,2,2,2,2,2,2,2,2] = Res.ok 199 [] ∧
    bitLength 199 = 8 ∧
    ¬(bitLength 199 = 2 * 3 - 1 ∨ bitLength 199 = 2 * 3) ∧
    (199 - 1) / 2 = 99 ∧ 99 = 9 * 11 ∧
    is_prime_rabin 99 (mkRat 1 100) 10 [2] = Res.ok false [] := by
  decide

/-- Claim C4: any value returned by `fast_safe_prime` is `3 mod 4` and its
companion `2p+1` was declared probably prime by the tester during the run
(the `(p-1)/2` branch can never produce an acceptance, see C5). -/
theorem claim4_fast_safe_prime_post :
    ∀ (k : ℕ) (prob : ℚ) (fuel : ℕ) (d : Draws) (p : ℕ) (rest : Draws),
      fast_safe_prime k prob fuel d = .ok p rest →
      p % 4 = 3 ∧ ∃ f d1 d2, is_prime_rabin (2 * p + 1) prob f d1 = .ok true d2 := by
  intro k prob fuel d p rest h
  rw [fast_safe_prime] at h
  obtain ⟨h1, h2, _⟩ := fspLoop_ok fuel k prob d p rest h
  exact ⟨h1, h2⟩

/-- Concrete instance of C4: a full run of `fast_safe_prime(4, 0.01)` that
returns `11` (candidate `11`, witnesses `2,2,2` accepting `11`, then
witnesses `2,2,2` accepting `2*11+1 = 23`). -/
theorem claim4_fast_safe_prime_post_inst :
    fast_safe_prime 4 (mkRat 1 100) 30 [11,2,2,2,2,2,2] = Res.ok 11 [] ∧
    (11 % 4 = 3 ∧ ∃ f d1 d2, is_prime_rabin (2 * 11 + 1) (mkRat 1 100) f d1 = .ok true d2) :=
  ⟨by decide,
   claim4_fast_safe_prime_post 4 (mkRat 1 100) 30 [11,2,2,2,2,2,2] 11 [] (by decide)⟩

/-- Claim C5: the name `is_prime` at source line 190 is undefined in the
module, so (1) whenever a filtered candidate `p` fails the
`is_prime_rabin(2p+1)` test, evaluating the second disjunct raises
`NameError`; (2) the line-190 test never returns a value through the
`(p-1)/2` branch (every `ok` outcome is `true` via the first disjunct); and
(3) a whole `fast_safe_prime` call in that situation surfaces the
`NameError` instead of continuing the search. -/
theorem claim5_undefined_is_prime_branch :
    (∀ (p : ℕ) (prob : ℚ) (fuel : ℕ) (d d' : Draws),
        is_prime_rabin (2 * p + 1) prob fuel d = .ok false d' →
        fspCheck p prob fuel d = .err .nameError) ∧
    (∀ (p : ℕ) (prob : ℚ) (fuel : ℕ) (d : Draws) (b : Bool) (rest : Draws),
        fspCheck p prob fuel d = .ok b rest → b = true) ∧
    (∀ (k : ℕ) (prob : ℚ) (fuel : ℕ) (d : Draws) (p : ℕ) (rest d' : Draws),
        random_prime_with_filter k (fun q => q % 4 == 3) prob fuel d = .ok p rest →
        is_prime_rabin (2 * p + 1) prob fuel rest = .ok false d' →
        fast_safe_prime k prob (fuel + 1) d = .err .nameError) := by
  refine ⟨?_, ?_, ?_⟩
  · intro p prob fuel d d' h
    exact fspCheck_false h
  · intro p prob fuel d b rest h
    exact (fspCheck_ok h).1
  · intro k prob fuel d p rest d' h1 h2
    have hstep : fast_safe_prime k prob (fuel + 1) d =
        (match fspCheck p prob fuel rest with
          | Res.ok true rest2 => Res.ok p rest2
          | Res.ok false rest2 => fspLoop fuel k prob rest2
          | Res.err e => Res.err e
          | Res.out => Res.out) := by
      rw [fast_safe_prime, fspLoop, h1]
    rw [hstep, fspCheck_false h2]

/-- Concrete instance of C5: with draws `[7,2,2,2,2]`, the filtered search
returns `p = 7`, the tester rejects `2*7+1 = 15` (witness `2`), and the whole
`fast_safe_prime(3, 0.01)` call raises `NameError`. -/
theorem claim5_undefined_is_prime_branch_inst :
    (is_prime_rabin (2 * 7 + 1) (mkRat 1 100) 10 [2] = Res.ok false [] ∧
      fspCheck 7 (mkRat 1 100) 10 [2] = Res.err .nameError) ∧
    (random_prime_with_filter 3 (fun q => q % 4 == 3) (mkRat 1 100) 10 [7,2,2,2,2] = Res.ok 7 [2] ∧
      fast_safe_prime 3 (mkRat 1 100) 11 [7,2,2,2,2] = Res.err .nameError) :=
  ⟨⟨by decide, claim5_undefined_is_prime_branch.1 7 (mkRat 1 100) 10 [2] [] (by decide)⟩,
   ⟨by decide,
    claim5_undefined_is_prime_branch.2.2 3 (mkRat 1 100) 10 [7,2,2,2,2] 7 [2] []
      (by decide) (by decide)⟩⟩

/-- Claim C6: any value returned by `random_prime(k, probability)` for
`k ≥ 2` has exactly `k` bits (candidates are drawn from
`[2^(k-1)+1, 2^k-1]`, so the top bit is set) and was accepted by
`is_prime_rabin` during the run. -/
theorem claim6_random_prime_post :
    ∀ (k : ℕ) (prob : ℚ) (nt fuel : ℕ) (d : Draws) (n : ℕ) (rest : Draws),
      2 ≤ k → random_prime k prob nt fuel d = .ok n rest →
      bitLength n = k ∧ ∃ f d1 d2, is_prime_rabin n prob f d1 = .ok true d2 := by
  intro k prob nt fuel d n rest hk h
  obtain ⟨⟨d1, rest1, hbi⟩, hmr⟩ := random_prime_ok h
  obtain ⟨hlo, hhi⟩ := random_bit_integer_ok hbi
  exact ⟨bitLength_eq (by omega) (by omega) hhi, hmr⟩

/-- Concrete instance of C6: `random_prime(3, 0.01)` with draws `[5,2,2,2]`
returns `5`, which has exactly `3` bits and was accepted by the tester. -/
theorem claim6_random_prime_post_inst :
    (2 ≤ 3 ∧ random_prime 3 (mkRat 1 100) 0 30 [5,2,2,2] = Res.ok 5 []) ∧
    (bitLength 5 = 3 ∧ ∃ f d1 d2, is_prime_rabin 5 (mkRat 1 100) f d1 = .ok true d2) :=
  ⟨⟨by norm_num, by decide⟩,
   claim6_random_prime_post 3 (mkRat 1 100) 0 30 [5,2,2,2] 5 [] (by norm_num) (by decide)⟩

/-- Claim C7 (code bug): the stated edge cases hold for `n = 2` (true) and
even `n` (false, with the draw list untouched — no witness is drawn, hence
no modular exponentiation), but not for every `n < 2`: at `n = 1` the
factorization loop divides `nn = 0` by `2` forever (`0 % 2 == 0` always), so
`is_prime_rabin(1, ...)` never returns at all — for every fuel and every
draw list the run is still inside the loop. -/
theorem claim7_edge_cases :
    (∀ (fuel : ℕ) (draws : Draws), is_prime_rabin 1 (mkRat 1 100) fuel draws = Res.out) ∧
    is_prime_rabin 2 (mkRat 1 100) 0 [] = Res.ok true [] ∧
    (∀ (probability : ℚ) (fuel : ℕ) (draws : Draws),
        is_prime_rabin 4 probability fuel draws = Res.ok false draws) ∧
    (∀ (probability : ℚ) (fuel : ℕ) (draws : Draws),
        is_prime_rabin 100 probability fuel draws = Res.ok false draws) := by
  refine ⟨?_, by decide, fun _ _ _ => rfl, fun _ _ _ => rfl⟩
  intro fuel draws
  rw [is_prime_rabin]
  simp [factorTwos_zero]

/-- Claim C8 (code bug): `random_prime(1, _)` loops forever — the sampling
range is the empty `[2, 1]`, every draw is rejected, so for every fuel and
every draw list the run is still inside the loop (it does not raise) —
while `random_prime(0, _)` raises `ValueError` from `math.log(0, 2)`
(not a dedicated invalid-input error). -/
theorem claim8_boundary_bitlengths :
    (∀ (fuel : ℕ) (draws : Draws), random_prime 1 (mkRat 1 100) 0 fuel draws = Res.out) ∧
    random_prime 0 (mkRat 1 100) 0 1 [] = Res.err Err.valueError := by
  refine ⟨?_, by decide⟩
  intro fuel draws
  rw [random_prime]
  cases fuel with
  | zero => rfl
  | succ f =>
      have hcond : (0 < 0 ∨ ((0 == 0 : Bool)) = true) := Or.inr rfl
      rw [randomPrimeLoop, if_pos hcond]
      have hbi : random_bit_integer 1 draws = Res.out := by
        have e1 : ((2 : ℤ) ^ (1 - 1) + 1 : ℤ) = 2 := by norm_num
        have e2 : ((2 : ℤ) ^ 1 - 1 : ℤ) = 1 := by norm_num
        rw [random_bit_integer, e1, e2, randomInRange, if_neg (by norm_num)]
        exact randomInRangeLoop_two_one draws
      rw [hbi]

/-- Claim C9 (counterexample part): at probability `0.01` the implemented
round count is `int(log_4 100) = 3`, whereas the claimed
`ceil(log_4 100) = 4` (since `4^3 < 100 ≤ 4^4`): the code truncates (floor),
it does not take the ceiling. -/
theorem claim9_rounds_not_ceil :
    numTrials (mkRat 1 100) = 3 ∧
    (4:ℚ) ^ 3 < 1 / (mkRat 1 100 : ℚ) ∧ 1 / (mkRat 1 100 : ℚ) ≤ (4:ℚ) ^ 4 := by
  have hv : (mkRat 1 100 : ℚ) = 1 / 100 := by
    rw [Rat.mkRat_eq_divInt, Rat.divInt_eq_div]
    norm_num
  refine ⟨by decide, ?_, ?_⟩ <;> rw [hv] <;> norm_num

/-- Claim C9 (amended): for every probability in `(0, 1)`, the round count
the code derives is the floor of `log_4(1/probability)`: it is the unique
`t` with `4^t ≤ 1/probability < 4^(t+1)`. -/
theorem claim9_rounds_floor_log4 (p : ℚ) (h0 : 0 < p) (h1 : p < 1) :
    (4:ℚ) ^ numTrials p ≤ 1 / p ∧ 1 / p < (4:ℚ) ^ (numTrials p + 1) := by
  have hnum : 0 < p.num := Rat.num_pos.mpr h0
  have hlt : p.num < (p.den : ℤ) := Rat.lt_one_iff_num_lt_denom.mp h1
  have hmz : ((p.num.toNat : ℕ) : ℤ) = p.num := Int.toNat_of_nonneg hnum.le
  have hm1 : 1 ≤ p.num.toNat := by omega
  have hmD : p.num.toNat < p.den := by omega
  have hx1 : 1 ≤ recipFloor p := by
    rw [recipFloor]
    exact (Nat.one_le_div_iff (by omega)).mpr (by omega)
  obtain ⟨ha, hb⟩ := log4Aux_spec (recipFloor p) (recipFloor p) hx1 le_rfl
  have hnt : numTrials p = log4Aux (recipFloor p) (recipFloor p) := rfl
  rw [← hnt] at ha hb
  have hA : 4 ^ numTrials p * p.num.toNat ≤ p.den := by
    calc 4 ^ numTrials p * p.num.toNat ≤ recipFloor p * p.num.toNat :=
          mul_le_mul_right' ha _
      _ ≤ p.den := by rw [recipFloor]; exact Nat.div_mul_le_self _ _
  have hB : p.den < 4 ^ (numTrials p + 1) * p.num.toNat := by
    have hstep : p.den < (recipFloor p + 1) * p.num.toNat := by
      calc p.den = p.num.toNat * (p.den / p.num.toNat) + p.den % p.num.toNat :=
            (Nat.div_add_mod _ _).symm
        _ < p.num.toNat * (p.den / p.num.toNat) + p.num.toNat :=
            Nat.add_lt_add_left (Nat.mod_lt _ (by omega)) _
        _ = (p.den / p.num.toNat + 1) * p.num.toNat := by ring
        _ = (recipFloor p + 1) * p.num.toNat := by rw [recipFloor]
    calc p.den < (recipFloor p + 1) * p.num.toNat := hstep
      _ ≤ 4 ^ (numTrials p + 1) * p.num.toNat :=
          mul_le_mul_right' (Nat.succ_le_of_lt hb) _
  have hmq : (0:ℚ) < ((p.num.toNat : ℕ) : ℚ) := by exact_mod_cast hm1
  have hDq : (0:ℚ) < ((p.den : ℕ) : ℚ) := by exact_mod_cast p.den_pos
  have E2 : ((p.num.toNat : ℕ) : ℚ) = ((p.num : ℤ) : ℚ) := by exact_mod_cast hmz
  have E : ((p.num.toNat : ℕ) : ℚ) / ((p.den : ℕ) : ℚ) = p := by
    rw [E2]
    exact Rat.num_div_den p
  set t : ℕ := numTrials p with htdef
  have goal1 : (4:ℚ) ^ t * p ≤ 1 := by
    rw [← E, mul_div_assoc']
    rw [div_le_one hDq]
    exact_mod_cast hA
  have goal2 : (1:ℚ) < (4:ℚ) ^ (t + 1) * p := by
    rw [← E, mul_div_assoc']
    rw [one_lt_div hDq]
    exact_mod_cast hB
  constructor
  · exact (le_div_iff₀ h0).mpr goal1
  · exact (div_lt_iff₀ h0).mpr goal2

/-- Concrete instance of the amended C9 at probability `0.01`. -/
theorem claim9_rounds_floor_log4_inst :
    (0 < mkRat 1 100 ∧ mkRat 1 100 < 1) ∧
    ((4:ℚ) ^ numTrials (mkRat 1 100) ≤ 1 / (mkRat 1 100 : ℚ) ∧
      1 / (mkRat 1 100 : ℚ) < (4:ℚ) ^ (numTrials (mkRat 1 100) + 1)) := by
  have hv : (mkRat 1 100 : ℚ) = 1 / 100 := by
    rw [Rat.mkRat_eq_divInt, Rat.divInt_eq_div]
    norm_num
  have hpos : 0 < mkRat 1 100 := by rw [hv]; norm_num
  have hlt1 : mkRat 1 100 < 1 := by rw [hv]; norm_num
  exact ⟨⟨hpos, hlt1⟩, claim9_rounds_floor_log4 (mkRat 1 100) hpos hlt1⟩

/-- Claim C10: every integer returned by `random_prime`,
`random_prime_with_filter`, `safe_prime`, or `fast_safe_prime` was accepted
by `is_prime_rabin` during its run; and when a bounded search exhausts its
trial bound it raises the explicit exhaustion exception — no call silently
returns a value that failed or skipped the test. -/
theorem claim10_returns_tested :
    (∀ (k : ℕ) (prob : ℚ) (nt fuel : ℕ) (d : Draws) (n : ℕ) (rest : Draws),
        random_prime k prob nt fuel d = .ok n rest →
        ∃ f d1 d2, is_prime_rabin n prob f d1 = .ok true d2) ∧
    (∀ (k : ℕ) (condition : ℕ → Bool) (prob : ℚ) (fuel : ℕ) (d : Draws)
        (n : ℕ) (rest : Draws),
        random_prime_with_filter k condition prob fuel d = .ok n rest →
        ∃ f d1 d2, is_prime_rabin n prob f d1 = .ok true d2) ∧
    (∀ (k : ℕ) (prob : ℚ) (fuel : ℕ) (d : Draws) (n : ℕ) (rest : Draws),
        safe_prime k prob fuel d = .ok n rest →
        ∃ f d1 d2, is_prime_rabin n prob f d1 = .ok true d2) ∧
    (∀ (k : ℕ) (prob : ℚ) (fuel : ℕ) (d : Draws) (n : ℕ) (rest : Draws),
        fast_safe_prime k prob fuel d = .ok n rest →
        ∃ f d1 d2, is_prime_rabin n prob f d1 = .ok true d2) ∧
    (∀ (fuel k : ℕ) (prob : ℚ) (nt trial : ℕ) (d : Draws), nt ≠ 0 → nt ≤ trial →
        randomPrimeLoop (fuel + 1) k prob nt trial false d =
          .err (.exception "Could not generate a random prime")) ∧
    (∀ (fuel k : ℕ) (condition : ℕ → Bool) (prob : ℚ) (trial : ℕ) (d : Draws),
        1000 ≤ trial →
        rpfLoop (fuel + 1) k condition prob trial d =
          .err (.exception "Could not generate a random prime that meets the criteria")) := by
  refine ⟨?_, ?_, ?_, ?_, ?_, ?_⟩
  · intro k prob nt fuel d n rest h
    exact (random_prime_ok h).2
  · intro k c prob fuel d n rest h
    exact (random_prime_with_filter_ok h).2.2
  · intro k prob fuel d n rest h
    exact safe_prime_ok h
  · intro k prob fuel d n rest h
    rw [fast_safe_prime] at h
    exact (fspLoop_ok fuel k prob d n rest h).2.2
  · exact randomPrimeLoop_exhaust
  · exact rpfLoop_exhaust

/-- Concrete instances of C10: accepted runs of all four generators and the
two exhaustion errors. -/
theorem claim10_returns_tested_inst :
    (∃ f d1 d2, is_prime_rabin 5 (mkRat 1 100) f d1 = .ok true d2) ∧
    (∃ f d1 d2, is_prime_rabin 7 (mkRat 1 100) f d1 = .ok true d2) ∧
    (∃ f d1 d2, is_prime_rabin 199 (mkRat 1 100) f d1 = .ok true d2) ∧
    (∃ f d1 d2, is_prime_rabin 11 (mkRat 1 100) f d1 = .ok true d2) ∧
    randomPrimeLoop 1 3 (mkRat 1 100) 1 1 false [] =
      .err (.exception "Could not generate a random prime") ∧
    rpfLoop 1 3 (fun p => p % 4 == 3) (mkRat 1 100) 1000 [] =
      .err (.exception "Could not generate a random prime that meets the criteria") :=
  ⟨claim10_returns_tested.1 3 (mkRat 1 100) 0 30 [5,2,2,2] 5 [] (by decide),
   claim10_returns_tested.2.1 3 (fun q => q % 4 == 3) (mkRat 1 100) 30 [7,2,2,2] 7 []
     (by decide),
   claim10_returns_tested.2.2.1 3 (mkRat 1 100) 30 [5,2,2,2,5,2,2,2,2,2,2,2,2,2] 199 []
     (by decide),
   claim10_returns_tested.2.2.2.1 4 (mkRat 1 100) 30 [11,2,2,2,2,2,2] 11 [] (by decide),
   claim10_returns_tested.2.2.2.2.1 0 3 (mkRat 1 100) 1 1 [] (by decide) (by decide),
   claim10_returns_tested.2.2.2.2.2 0 3 (fun p => p % 4 == 3) (mkRat 1 100) 1000 []
     (by decide)⟩
